import Mathlib

/-!
Verification of the MotoGarage DSL core: a shallow embedding of the AST,
interpreter and translation helpers from src/lib.rs, with theorems about
query filtering, comparison semantics, coercion defaults and the
append-only record store.
-/

namespace MotoGarage

/-- The `Value` enum: a number, a bare identifier, or a quoted string literal. -/
inductive Value where
| Number (n : Nat)
| StringType (s : String)
| StringLiteral (s : String)
deriving DecidableEq, Repr

/-- `Value::value_as_number`: the wrapped number, or 0 if not a number. -/
def Value.value_as_number : Value → Nat
  | Value.Number n => n
  | _ => 0

/-- `Value::value_as_string`: the wrapped text, or the empty string. -/
def Value.value_as_string : Value → String
  | Value.StringType s => s
  | Value.StringLiteral s => s
  | _ => ""

/-- The `Motorcycle` record: a name and three optional attributes. -/
structure Motorcycle where
  name : String
  year : Option Nat := none
  engine_cc : Option Nat := none
  bike_type : Option String := none
deriving DecidableEq, Repr

/-- A `Condition` of a WHERE clause: field, operator, value. -/
structure Condition where
  field : String
  operator : String
  value : Value
deriving DecidableEq, Repr

/-- A `Query`: an optional condition; `none` means match all bikes. -/
structure Query where
  condition : Option Condition
deriving DecidableEq, Repr

/-- The `Command` enum: DEFINE, GET or COUNT. -/
inductive Command where
| Definition (bike : Motorcycle)
| Get (query : Query)
| Count (query : Query)
deriving DecidableEq, Repr

/-- The library error enum `MotoError`. -/
inductive MotoError where
| ParseError (msg : String)
| InterpreterError (msg : String)
deriving DecidableEq, Repr

/-- The numeric comparison helper `compare`. -/
def compare (a : Nat) (op : String) (b : Nat) : Bool :=
  match op with
  | "=" => a == b
  | ">" => decide (a > b)
  | "<" => decide (a < b)
  | _ => false

/-- `Motorcycle::matches`: does a bike satisfy a single condition? -/
def Motorcycle.matches (m : Motorcycle) (condition : Condition) : Bool :=
  match condition.field with
  | "type" => m.bike_type.elim false (fun t => t == condition.value.value_as_string)
  | "year" => m.year.elim false (fun y => compare y condition.operator condition.value.value_as_number)
  | "engine" => m.engine_cc.elim false (fun e => compare e condition.operator condition.value.value_as_number)
  | _ => false

/-- The `Garage` interpreter state: the in-memory list of bikes. -/
structure Garage where
  bikes : List Motorcycle
deriving DecidableEq, Repr

/-- `Garage::new`: an empty garage. -/
def Garage.new : Garage := ⟨[]⟩

/-- `Garage::filter_bikes`: the bikes matching a query, in store order. -/
def Garage.filter_bikes (g : Garage) (query : Query) : List Motorcycle :=
  g.bikes.filter (fun bike => query.condition.elim true (fun c => bike.matches c))

/-- `Garage::run_query_get`: names of the matching bikes. -/
def Garage.run_query_get (g : Garage) (query : Query) : List String :=
  (g.filter_bikes query).map (fun bike => bike.name)

/-- One iteration of the `execute` loop: the output lines a command
produces and the store after it runs. -/
def execStep (bikes : List Motorcycle) : Command → List String × List Motorcycle
  | Command.Definition bike => ([], bikes ++ [bike])
  | Command.Get query => (Garage.run_query_get ⟨bikes⟩ query, bikes)
  | Command.Count query =>
      (["Bikes found: " ++ Nat.repr (Garage.filter_bikes ⟨bikes⟩ query).length], bikes)

/-- The `execute` loop over a whole program: accumulated output lines and
final store. -/
def executeAux : List Motorcycle → List Command → List String × List Motorcycle
  | bikes, [] => ([], bikes)
  | bikes, command :: rest =>
    let step := execStep bikes command
    let r := executeAux step.2 rest
    (step.1 ++ r.1, r.2)

/-- `Garage::execute`: runs the program and returns all collected results.
The Rust code always reaches `Ok(results)`. -/
def Garage.execute (g : Garage) (program : List Command) : Except MotoError (List String) :=
  Except.ok (executeAux g.bikes program).1

/-- The inner rule alternatives of a recognized value node, each carrying
its matched source text (the grammar file is external; the alternatives
are those `parse_value` dispatches on). -/
inductive RawValue where
| number (text : String)
| number_with_unit (text : String)
| ident (text : String)
| string_literal (text : String)
deriving DecidableEq, Repr

/-- `parse_string_literal`: `trim_matches('"')`, stripping all leading and
trailing quote characters. -/
def parse_string_literal (s : String) : String :=
  String.mk (((s.data.dropWhile (fun c => c == '"')).reverse.dropWhile (fun c => c == '"')).reverse)

/-- Decimal accumulation of a digit list, most significant first. -/
def digitsToNat (l : List Char) : Nat :=
  l.foldl (fun acc c => acc * 10 + (c.toNat - 48)) 0

/-- Rust `str::parse::<u32>`: an optional leading plus sign, one or more
digits, and the value must fit in 32 bits; otherwise it fails. -/
def parseU32 (s : String) : Option Nat :=
  let l := if s.data.head? == some '+' then s.data.tail else s.data
  if !l.isEmpty && l.all Char.isDigit then
    if digitsToNat l ≤ 4294967295 then some (digitsToNat l) else none
  else none

/-- Rust `str::replace("cc", "")` on the character list: removes
non-overlapping occurrences of `cc`, left to right. -/
def stripCCList : List Char → List Char
  | [] => []
  | 'c' :: 'c' :: rest => stripCCList rest
  | c :: rest => c :: stripCCList rest

/-- `replace("cc", "")` on a string. -/
def stripCC (s : String) : String :=
  String.mk (stripCCList s.data)

/-- `parse_value`: turns a recognized value node into a `Value`; an
unparsable number degrades to 0 via `unwrap_or(0)`. -/
def parse_value : RawValue → Value
  | RawValue.number t => Value.Number ((parseU32 t).getD 0)
  | RawValue.number_with_unit t => Value.Number ((parseU32 (stripCC t)).getD 0)
  | RawValue.ident t => Value.StringType t
  | RawValue.string_literal t => Value.StringLiteral (parse_string_literal t)

/-- One iteration of the property loop in `parse_definition`: dispatch on
the field name and update the bike; unknown properties are ignored. -/
def applyProperty (bike : Motorcycle) (field_name : String) (value_pair : RawValue) : Motorcycle :=
  match field_name with
  | "year" => { bike with year := some (parse_value value_pair).value_as_number }
  | "engine" => { bike with engine_cc := some (parse_value value_pair).value_as_number }
  | "type" => { bike with bike_type := some (parse_value value_pair).value_as_string }
  | _ => bike

/-- `parse_definition`: the name literal (quotes stripped) followed by the
property list, folded over `applyProperty`. -/
def parse_definition (name_lit : String) (props : List (String × RawValue)) : Motorcycle :=
  props.foldl (fun bike p => applyProperty bike p.1 p.2)
    { name := parse_string_literal name_lit, year := none, engine_cc := none, bike_type := none }

/-! ## Theorems -/

/-- The execute loop splits over list append: output lines concatenate and
the store threads through. -/
theorem executeAux_append (bikes : List Motorcycle) (p q : List Command) :
    executeAux bikes (p ++ q) =
      ((executeAux bikes p).1 ++ (executeAux (executeAux bikes p).2 q).1,
        (executeAux (executeAux bikes p).2 q).2) := by
  induction p generalizing bikes with
  | nil => simp [executeAux]
  | cons c rest ih => simp [executeAux, ih]

/-- C1: in any execution, a Count command appends exactly one output line,
namely "Bikes found: " followed by the decimal count of records matching
its query in the store as it stands at that point. -/
theorem count_appends_one_line (bikes : List Motorcycle) (p : List Command) (q : Query) :
    (executeAux bikes (p ++ [Command.Count q])).1 =
      (executeAux bikes p).1 ++
        ["Bikes found: " ++ Nat.repr (Garage.filter_bikes ⟨(executeAux bikes p).2⟩ q).length] := by
  simp [executeAux_append, executeAux, execStep]

/-- C2: filtering with an absent condition returns every record in store
order, so a GET with no where-clause outputs each record name in
insertion order. -/
theorem absent_condition_returns_all (g : Garage) :
    g.filter_bikes ⟨none⟩ = g.bikes ∧
    g.run_query_get ⟨none⟩ = g.bikes.map (fun bike => bike.name) ∧
    g.execute [Command.Get ⟨none⟩] = Except.ok (g.bikes.map (fun bike => bike.name)) := by
  refine ⟨?_, ?_, ?_⟩ <;>
    simp [Garage.filter_bikes, Garage.run_query_get, Garage.execute, executeAux, execStep,
      Option.elim]

/-- C3: the numeric comparison returns equality for "=", strict greater
for ">", strict less for "<", and false for any other operator string;
it is total. -/
theorem compare_op_table (a b : Nat) (op : String) :
    compare a op b =
      if op = "=" then a == b
      else if op = ">" then decide (a > b)
      else if op = "<" then decide (a < b)
      else false := by
  unfold compare
  split <;> simp_all

/-- C4: execute returns a successful result for every program and store
state; no execution path yields a `MotoError`. -/
theorem execute_always_ok (g : Garage) (p : List Command) :
    ∃ rs : List String, g.execute p = Except.ok rs ∧
      ∀ e : MotoError, g.execute p ≠ Except.error e :=
  ⟨(executeAux g.bikes p).1, rfl, fun _ => by simp [Garage.execute]⟩

/-- C5: translating a value node whose numeric text fails to parse as an
unsigned 32-bit integer yields the number zero, not an error. -/
theorem unparsable_number_becomes_zero (t : String) (h : parseU32 t = none) :
    parse_value (RawValue.number t) = Value.Number 0 := by
  simp [parse_value, h]

/-- C5 witness: the digit string 4294967296 exceeds the 32-bit range and
translates to the number zero. -/
theorem unparsable_number_becomes_zero_witness :
    parseU32 "4294967296" = none ∧
      parse_value (RawValue.number "4294967296") = Value.Number 0 :=
  ⟨by decide, unparsable_number_becomes_zero "4294967296" (by decide)⟩

/-- Folding the property loop ignores every property whose name is
unrecognized: filtering them out first gives the same bike, whatever the
accumulator. -/
theorem foldl_applyProperty_filter (props : List (String × RawValue)) (bike : Motorcycle) :
    props.foldl (fun b p => applyProperty b p.1 p.2) bike =
      (props.filter (fun p => p.1 == "year" || p.1 == "engine" || p.1 == "type")).foldl
        (fun b p => applyProperty b p.1 p.2) bike := by
  induction props generalizing bike with
  | nil => rfl
  | cons p rest ih =>
    by_cases hp : (p.1 == "year" || p.1 == "engine" || p.1 == "type") = true
    · simp only [List.filter_cons, hp, if_pos, List.foldl_cons]
      exact ih (applyProperty bike p.1 p.2)
    · have hstep : applyProperty bike p.1 p.2 = bike := by
        unfold applyProperty
        split <;> simp_all
      simp only [List.filter_cons, hp, if_neg, List.foldl_cons, hstep]
      exact ih bike

/-- C6: definition translation silently ignores every property whose name
is outside year, engine, type — dropping the unrecognized properties
gives the same Motorcycle, so only the name and recognized properties are
set; such a record still counts, as in DEFINE bike "X" with only a color
property followed by COUNT BIKES. -/
theorem unknown_properties_ignored (name_lit : String) (props : List (String × RawValue)) :
    parse_definition name_lit props =
      parse_definition name_lit
        (props.filter (fun p => p.1 == "year" || p.1 == "engine" || p.1 == "type")) ∧
    Garage.execute ⟨[]⟩
        [Command.Definition (parse_definition "\"X\"" [("color", RawValue.ident "red")]),
          Command.Count ⟨none⟩] =
      Except.ok ["Bikes found: 1"] := by
  constructor
  · exact foldl_applyProperty_filter props _
  · rfl

/-- C7: a condition whose field is outside type, year, engine matches no
record: GET with it outputs nothing and COUNT with it reports zero. -/
theorem unrecognized_field_never_matches (bike : Motorcycle) (c : Condition) (g : Garage)
    (h : c.field ≠ "type" ∧ c.field ≠ "year" ∧ c.field ≠ "engine") :
    bike.matches c = false ∧
    Garage.run_query_get g ⟨some c⟩ = [] ∧
    Garage.execute g [Command.Count ⟨some c⟩] = Except.ok ["Bikes found: 0"] := by
  have hm : ∀ b : Motorcycle, b.matches c = false := by
    intro b
    unfold Motorcycle.matches
    split <;> simp_all
  refine ⟨hm bike, ?_, ?_⟩
  · simp [Garage.run_query_get, Garage.filter_bikes, Option.elim, hm]
  · simp [Garage.execute, executeAux, execStep, Garage.filter_bikes, Option.elim, hm]
    rfl

/-- C7 witness: a color condition matches nothing in a one-record store. -/
theorem unrecognized_field_never_matches_witness :
    Motorcycle.matches ⟨"A", some 2020, none, none⟩ ⟨"color", "=", Value.StringType "red"⟩ =
      false ∧
    Garage.run_query_get ⟨[⟨"A", some 2020, none, none⟩]⟩
        ⟨some ⟨"color", "=", Value.StringType "red"⟩⟩ = [] ∧
    Garage.execute ⟨[⟨"A", some 2020, none, none⟩]⟩
        [Command.Count ⟨some ⟨"color", "=", Value.StringType "red"⟩⟩] =
      Except.ok ["Bikes found: 0"] :=
  unrecognized_field_never_matches ⟨"A", some 2020, none, none⟩
    ⟨"color", "=", Value.StringType "red"⟩ ⟨[⟨"A", some 2020, none, none⟩]⟩ (by decide)

/-- The motorcycles appended by the Definition commands of a program, in
program order. -/
def definedBikes (p : List Command) : List Motorcycle :=
  p.filterMap (fun c =>
    match c with
    | Command.Definition m => some m
    | _ => none)

/-- C8: the store is append-only: the final store is the initial one
followed by exactly the defined bikes in order, Definitions emit no
output, and a program of only Definitions returns an empty result
sequence. -/
theorem store_append_only (bikes : List Motorcycle) (p : List Command) :
    (executeAux bikes p).2 = bikes ++ definedBikes p ∧
    ((∀ c ∈ p, ∃ m, c = Command.Definition m) →
      (executeAux bikes p).1 = [] ∧ Garage.execute ⟨bikes⟩ p = Except.ok []) := by
  induction p generalizing bikes with
  | nil => simp [executeAux, definedBikes, Garage.execute]
  | cons c rest ih =>
    constructor
    · cases c with
      | Definition m =>
        have hr := (ih (bikes ++ [m])).1
        simp [executeAux, execStep, definedBikes, List.filterMap_cons] at hr ⊢
        simp [hr]
      | Get q =>
        have hr := (ih bikes).1
        simpa [executeAux, execStep, definedBikes, List.filterMap_cons] using hr
      | Count q =>
        have hr := (ih bikes).1
        simpa [executeAux, execStep, definedBikes, List.filterMap_cons] using hr
    · intro h
      obtain ⟨m, rfl⟩ := h c (List.mem_cons_self c rest)
      have hrest := (ih (bikes ++ [m])).2 (fun d hd => h d (List.mem_cons_of_mem _ hd))
      refine ⟨?_, ?_⟩
      · simp [executeAux, execStep, hrest.1]
      · simp [Garage.execute, executeAux, execStep, hrest.1]

/-- C8 witness: a one-Definition program appends that bike and produces
no output. -/
theorem store_append_only_witness :
    (executeAux [] [Command.Definition ⟨"A", none, none, none⟩]).1 = [] ∧
    Garage.execute ⟨[]⟩ [Command.Definition ⟨"A", none, none, none⟩] = Except.ok [] :=
  (store_append_only [] [Command.Definition ⟨"A", none, none, none⟩]).2
    (fun c hc => ⟨⟨"A", none, none, none⟩, by simpa using hc⟩)

/-- C9: execution is deterministic: two garages with equal stores produce
equal results, and in particular running the same program twice from a
fresh store yields identical output sequences. -/
theorem execute_deterministic (p : List Command) (g1 g2 : Garage)
    (h : g1.bikes = g2.bikes) :
    g1.execute p = g2.execute p ∧
    Garage.execute Garage.new p = Garage.execute Garage.new p := by
  constructor
  · simp [Garage.execute, h]
  · rfl

/-- C9 witness: two fresh garages running a COUNT agree. -/
theorem execute_deterministic_witness :
    Garage.execute ⟨[]⟩ [Command.Count ⟨none⟩] = Garage.execute ⟨[]⟩ [Command.Count ⟨none⟩] ∧
    Garage.execute Garage.new [Command.Count ⟨none⟩] =
      Garage.execute Garage.new [Command.Count ⟨none⟩] :=
  execute_deterministic [Command.Count ⟨none⟩] ⟨[]⟩ ⟨[]⟩ rfl

/-- C10: a type condition never consults its operator: a record matches
exactly when its bike type is present and equals the value read as text,
any two operators agree, and a Number value matches exactly the records
whose bike type is the empty string. -/
theorem type_condition_ignores_operator (bike : Motorcycle) (op op2 : String) (v : Value)
    (n : Nat) :
    (bike.matches ⟨"type", op, v⟩ = true ↔ bike.bike_type = some v.value_as_string) ∧
    bike.matches ⟨"type", op, v⟩ = bike.matches ⟨"type", op2, v⟩ ∧
    (bike.matches ⟨"type", op, Value.Number n⟩ = true ↔ bike.bike_type = some "") := by
  cases hb : bike.bike_type <;>
    simp [Motorcycle.matches, Value.value_as_string, hb]

end MotoGarage
